import Mathlib

/-!
# Shallow embedding of the firefly-common event-stream manager and FFI types

This file embeds, in Lean 4, the parts of the repository needed to verify the
claims about:

* `eventstreams` manager (`NewEventStreamManager`, `initialize`, `UpsertStream`,
  `ResetStream`, `enrichGetStream`, `ListStreams`, `GetStreamByID`), translated
  from the Go source of `es_manager.go` (src/unnamed/part_000);
* `fftypes.FFIParams` (`Scan`, `Value`), translated from `pkg/fftypes/ffi.go`.

Go maps are modelled as association lists, the persisted `event_streams` table
as a list of rows in a stable order (the persistence layer guarantees stable
pagination ordering), pointers as `Option`, and external collaborators
(the JSON codec, the TLS parser, the per-stream engine that is not part of the
provided sources) as explicit parameters or definitions marked
`Modelled from the spec:`.
-/

/-- Status enum of a stream spec (`EventStreamStatusStarted` etc. in Go). -/
inductive EventStreamStatus
  | started
  | stopped
  | deleted
  | unknown
  deriving DecidableEq, Repr

/-- A persisted stream spec row. Go struct fields are pointers, so every field
is an `Option`. The type-parameterised configuration blob is opaque to the
manager and modelled as an `Option Nat`; the batch/retry policy fields that the
manager itself never reads are summarised by `batchSize` / `batchTimeoutMS`
(enough to express the "defaults are not written back" claims). -/
structure EventStreamSpec where
  id : Option String
  name : Option String
  status : Option EventStreamStatus
  initialSequenceID : Option String
  config : Option Nat
  batchSize : Option Nat
  batchTimeoutMS : Option Nat
  deriving DecidableEq, Repr

/-- `GetID` on a spec: dereference of the ID pointer, empty string when nil. -/
def EventStreamSpec.getID (e : EventStreamSpec) : String :=
  e.id.getD ""

/-- Error kinds surfaced by the manager (i18n message identities). -/
inductive Err
  | notFound
  | startedOrStopped
  | validationFailed
  | configNotInitialized
  | tlsParse
  | storage
  | suspendError
  deriving DecidableEq, Repr

/-- The runtime extension supplied to the manager (`Runtime` interface in Go):
an ID generator and the type-specific config validation. -/
structure RuntimeModel where
  newID : String
  validateConfig : Option Nat → Bool

/-- Live default for a missing batch size (value irrelevant, positive). -/
def defaultBatchSize : Nat := 10

/-- Live default for a missing batch timeout in ms (value irrelevant, positive). -/
def defaultBatchTimeoutMS : Nat := 5000

/-- Modelled from the spec: `validateStream` is declared on the manager but its
body is not under src/. Per the spec it enforces name format, the status enum,
numeric ranges and the runtime's typed-config validation; when `applyDefaults`
is true the live defaults are written back into the spec, and when it is false
"missing values are treated as present-at-live-default but not written back to
the spec". Returns `none` on a validation error, otherwise the (possibly
defaulted) spec. -/
def validateStream (rt : RuntimeModel) (es : EventStreamSpec) (applyDefaults : Bool) :
    Option EventStreamSpec :=
  if es.name.getD "" = "" then none
  else if ¬(es.status = some .started ∨ es.status = some .stopped ∨ es.status = some .deleted)
    then none
  else if es.batchSize.getD defaultBatchSize = 0 then none
  else if es.batchTimeoutMS.getD defaultBatchTimeoutMS = 0 then none
  else if ¬ rt.validateConfig es.config then none
  else if applyDefaults then
    some { es with
      batchSize := some (es.batchSize.getD defaultBatchSize),
      batchTimeoutMS := some (es.batchTimeoutMS.getD defaultBatchTimeoutMS) }
  else some es

/-- Modelled from the spec: the per-stream engine (`eventStream` type) is not
under src/. For the manager-level claims only two observables matter: the
spec snapshot the stream holds, and whether its producer/dispatcher tasks are
active. `suspendFails` records the externally-determined outcome of asking the
engine to suspend (its suspend can fail; the manager code handles that error). -/
structure LiveStream where
  spec : EventStreamSpec
  active : Bool
  suspendFails : Bool
  deriving DecidableEq, Repr

/-- Modelled from the spec: `initEventStream` materialises a persisted spec
into a LiveStream "honouring its persisted status" (spec section 4.5). -/
def initEventStream (es : EventStreamSpec) : LiveStream :=
  { spec := es, active := es.status == some EventStreamStatus.started, suspendFails := false }

/-- Modelled from the spec: `suspend` forces Draining then Stopped without
altering the persisted status; it can fail (the Go callers check its error). -/
def LiveStream.suspend (es : LiveStream) : Except Err LiveStream :=
  if es.suspendFails then Except.error Err.suspendError
  else Except.ok { es with active := false }

/-- Modelled from the spec: `ensureActive` (re)activates the stream's tasks. -/
def LiveStream.ensureActive (es : LiveStream) : LiveStream :=
  { es with active := true }

/-- Modelled from the spec: `start` spawns the producer and dispatcher tasks. -/
def LiveStream.start (es : LiveStream) : LiveStream :=
  { es with active := true }

/-- `EventStreamWithStatus`: a spec enriched with the live status. -/
structure EventStreamWithStatus where
  spec : EventStreamSpec
  status : EventStreamStatus
  deriving DecidableEq, Repr

/-- Modelled from the spec: `es.Status(ctx)` wraps the spec snapshot with the
live lifecycle status. -/
def LiveStream.statusOf (es : LiveStream) : EventStreamWithStatus :=
  { spec := es.spec, status := if es.active then .started else .stopped }

/-- The whole mutable state owned by the manager together with the persisted
tables it talks to: the `event_streams` table (stable row order), the
`checkpoints` table (stream id paired with sequence id), and the in-memory
registry map `streams` (association list keyed by stream id). -/
structure ManagerState where
  table : List EventStreamSpec
  checkpoints : List (String × String)
  streams : List (String × LiveStream)
  deriving DecidableEq, Repr

/-- Lookup in the registry association list (Go map read `esm.streams[id]`). -/
def lookupStream : List (String × LiveStream) → String → Option LiveStream
  | [], _ => none
  | (k, v) :: t, id => if k = id then some v else lookupStream t id

/-- Insert-or-replace in the registry association list (Go map write). -/
def insertStream : List (String × LiveStream) → String → LiveStream → List (String × LiveStream)
  | [], id, es => [(id, es)]
  | (k, v) :: t, id, es => if k = id then (id, es) :: t else (k, v) :: insertStream t id es

/-- `esm.addStream`: registers the stream in the registry under its spec's ID. -/
def addStream (st : ManagerState) (es : LiveStream) : ManagerState :=
  { st with streams := insertStream st.streams es.spec.getID es }

/-- `esm.removeStream`: deletes the registry entry. -/
def removeStream (st : ManagerState) (id : String) : ManagerState :=
  { st with streams := st.streams.filter (fun kv => kv.1 != id) }

/-- Persistence `EventStreams().Delete(ctx, id)`: removes the spec row. -/
def deleteSpecRow (table : List EventStreamSpec) (id : String) : List EventStreamSpec :=
  table.filter (fun r => r.getID != id)

/-- Page size used by `initialize` (Go constant `pageSize = 25`). -/
def pageSize : Nat := 25

/-- Observable persistence/registry actions of `initialize`, used to state the
temporal ordering claims about startup. -/
inductive InitAction
  | deleteRow (id : String)
  | createStream (id : String)
  deriving DecidableEq, Repr

/-- The body of `initialize`'s inner `for _, esSpec := range streams` loop:
a spec with status deleted has its row deleted from persistence (the delete
can fail with a storage error, modelled by the oracle `df`); any other spec is
materialised with `initEventStream` and registered with `addStream`. The
performed actions are returned as a trace. -/
def processSpecs (df : String → Bool) (st : ManagerState) :
    List EventStreamSpec → Except Err ManagerState × List InitAction
  | [] => (Except.ok st, [])
  | s :: rest =>
    if s.status = some EventStreamStatus.deleted then
      if df s.getID then (Except.error Err.storage, [])
      else
        let next := processSpecs df { st with table := deleteSpecRow st.table s.getID } rest
        (next.1, InitAction.deleteRow s.getID :: next.2)
    else
      let next := processSpecs df (addStream st (initEventStream s)) rest
      (next.1, InitAction.createStream s.getID :: next.2)

/-- Rows of the current table returned by
`GetMany(ctx, fb.And().Skip(skip).Limit(pageSize))`. -/
def getPage (table : List EventStreamSpec) (skip : Nat) : List EventStreamSpec :=
  (table.drop skip).take pageSize

/-- Helper: table length after a successful `processSpecs` never grows
(deleting rows is the only table mutation). -/
theorem processSpecs_ok_table_length (df : String → Bool) :
    ∀ (l : List EventStreamSpec) (st st' : ManagerState) (tr : List InitAction),
      processSpecs df st l = (Except.ok st', tr) → st'.table.length ≤ st.table.length := by
  intro l
  induction l with
  | nil =>
    intro st st' tr h
    simp [processSpecs] at h
    simp [h.1.symm]
  | cons s rest ih =>
    intro st st' tr h
    by_cases hdel : s.status = some EventStreamStatus.deleted
    · by_cases hdf : df s.getID = true
      · simp [processSpecs, hdel, hdf] at h
      · rcases hrec : processSpecs df
            { st with table := deleteSpecRow st.table s.getID } rest with ⟨r, tr2⟩
        simp [processSpecs, hdel, hdf, hrec] at h
        rw [h.1] at hrec
        have h1 := ih _ _ _ hrec
        calc st'.table.length
            ≤ (deleteSpecRow st.table s.getID).length := by simpa using h1
          _ ≤ st.table.length := List.length_filter_le _ _
    · rcases hrec : processSpecs df (addStream st (initEventStream s)) rest with ⟨r, tr2⟩
      simp [processSpecs, hdel, hrec] at h
      rw [h.1] at hrec
      have h1 := ih _ _ _ hrec
      simpa [addStream] using h1

/-- `esm.initialize`'s paging loop: fetch a page at `skip`; stop on an empty
page; otherwise process the page's specs, advance `skip` by the page size and
continue. The trace records the actions in execution order. -/
def initializeLoop (df : String → Bool) (st : ManagerState) (skip : Nat) :
    Except Err ManagerState × List InitAction :=
  if hp : (getPage st.table skip).isEmpty then (Except.ok st, [])
  else
    match hps : processSpecs df st (getPage st.table skip) with
    | (Except.error e, tr) => (Except.error e, tr)
    | (Except.ok st', tr) =>
      let next := initializeLoop df st' (skip + pageSize)
      (next.1, tr ++ next.2)
termination_by st.table.length - skip
decreasing_by
  have hle : st'.table.length ≤ st.table.length :=
    processSpecs_ok_table_length df (getPage st.table skip) st st' tr hps
  have hlt : skip < st.table.length := by
    by_contra hge
    have hdrop : st.table.drop skip = [] := List.drop_eq_nil_of_le (by omega)
    simp [getPage, hdrop] at hp
  have hps' : 0 < pageSize := by simp [pageSize]
  omega

/-- The whole of `esm.initialize`: pages the spec table from skip 0. -/
def initializeManager (df : String → Bool) (st : ManagerState) :
    Except Err ManagerState × List InitAction :=
  initializeLoop df st 0

/-- First step of `UpsertStream`: a nil or empty ID is replaced by a fresh ID
from the runtime's generator (`esSpec.ID = ptrTo(esm.runtime.NewID())`). -/
def assignID (rt : RuntimeModel) (es : EventStreamSpec) : EventStreamSpec :=
  if es.id = none ∨ es.id = some "" then { es with id := some rt.newID } else es

/-- Second step of `UpsertStream`: a nil status defaults to started
(`esSpec.Status = &EventStreamStatusStarted`). -/
def defaultStatus (es : EventStreamSpec) : EventStreamSpec :=
  if es.status = none then { es with status := some EventStreamStatus.started } else es

/-- Persistence `EventStreams().Upsert(ctx, esSpec, UpsertOptimizationExisting)`:
replace the row with the same ID if present (isNew = false), else append the
row (isNew = true). -/
def upsertRow (table : List EventStreamSpec) (s : EventStreamSpec) :
    List EventStreamSpec × Bool :=
  if table.any (fun r => r.getID == s.getID) then
    (table.map (fun r => if r.getID == s.getID then s else r), false)
  else (table ++ [s], true)

/-- `esm.reInit`: suspend the pre-existing LiveStream for the same ID if any,
build a new LiveStream from the spec, register it, and activate it when the
spec status is started. -/
def reInit (st : ManagerState) (esSpec : EventStreamSpec) (existing : Option LiveStream) :
    ManagerState × Option Err :=
  let register : ManagerState → ManagerState × Option Err := fun st1 =>
    let es := initEventStream esSpec
    let es2 := if es.spec.status == some EventStreamStatus.started then es.ensureActive else es
    (addStream st1 es2, none)
  match existing with
  | some ex =>
    match ex.suspend with
    | Except.error e => (st, some e)
    | Except.ok _ => register st
  | none => register st

/-- `esm.UpsertStream`: assign a fresh ID when absent (looking up the existing
LiveStream only when an ID was supplied), default a nil status to started,
reject statuses other than started/stopped, validate with `applyDefaults`
false, upsert the spec row, then re-initialise the LiveStream. Result is
(state, isNew, error). -/
def UpsertStream (rt : RuntimeModel) (st : ManagerState) (esSpec : EventStreamSpec) :
    ManagerState × Bool × Option Err :=
  let withID := assignID rt esSpec
  let existing :=
    if esSpec.id = none ∨ esSpec.id = some "" then none
    else lookupStream st.streams withID.getID
  let spec1 := defaultStatus withID
  if ¬(spec1.status = some EventStreamStatus.started ∨
       spec1.status = some EventStreamStatus.stopped) then
    (st, false, some Err.startedOrStopped)
  else
    match validateStream rt spec1 false with
    | none => (st, false, some Err.validationFailed)
    | some v =>
      let up := upsertRow st.table v
      let st1 : ManagerState := { st with table := up.1 }
      let r := reInit st1 v existing
      (r.1, up.2, r.2)

/-- Field-by-field sparse merge used by `UpdateSparse`: every non-nil field of
the sparse update overwrites the row's field; nil fields leave the row alone. -/
def pickField {α : Type} (sparse row : Option α) : Option α :=
  match sparse with
  | some v => some v
  | none => row

/-- `applySparse row sparse`: the row after a sparse update. -/
def applySparse (row sparse : EventStreamSpec) : EventStreamSpec :=
  { id := pickField sparse.id row.id,
    name := pickField sparse.name row.name,
    status := pickField sparse.status row.status,
    initialSequenceID := pickField sparse.initialSequenceID row.initialSequenceID,
    config := pickField sparse.config row.config,
    batchSize := pickField sparse.batchSize row.batchSize,
    batchTimeoutMS := pickField sparse.batchTimeoutMS row.batchTimeoutMS }

/-- Persistence `EventStreams().UpdateSparse(ctx, sparse)`: sparse-update the
row whose ID matches the sparse spec's ID. -/
def updateSparse (table : List EventStreamSpec) (sparse : EventStreamSpec) :
    List EventStreamSpec :=
  table.map (fun r => if r.getID == sparse.getID then applySparse r sparse else r)

/-- The sparse spec built inline by `ResetStream`: only the ID and
InitialSequenceID fields are set. -/
def sparseSeqUpdate (id seq : String) : EventStreamSpec :=
  { id := some id, name := none, status := none, initialSequenceID := some seq,
    config := none, batchSize := none, batchTimeoutMS := none }

/-- `esm.ResetStream`: look up the LiveStream (404 when absent); suspend it;
delete every checkpoint row for the stream; set InitialSequenceID on the
in-memory spec; sparse-update the persisted row with only ID and
InitialSequenceID; finally start the stream again when the spec status is
started. -/
def ResetStream (st : ManagerState) (id seq : String) : ManagerState × Option Err :=
  match lookupStream st.streams id with
  | none => (st, some Err.notFound)
  | some es =>
    match es.suspend with
    | Except.error e => (st, some e)
    | Except.ok es1 =>
      let cps := st.checkpoints.filter (fun c => c.1 != id)
      let es2 : LiveStream := { es1 with spec := { es1.spec with initialSequenceID := some seq } }
      let table2 := updateSparse st.table (sparseSeqUpdate id seq)
      let es3 := if es2.spec.status == some EventStreamStatus.started then es2.start else es2
      ({ table := table2, checkpoints := cps, streams := insertStream st.streams id es3 }, none)

/-- `esm.enrichGetStream`: overlay the live status when a LiveStream exists;
otherwise fall back to wrapping the persisted spec with status unknown
rather than failing. -/
def enrichGetStream (st : ManagerState) (esSpec : EventStreamSpec) : EventStreamWithStatus :=
  match lookupStream st.streams esSpec.getID with
  | some es => es.statusOf
  | none => { spec := esSpec, status := EventStreamStatus.unknown }

/-- `esm.ListStreams`: fetch the filtered rows (the filter is an opaque
predicate evaluated by the persistence layer) and enrich each with the live
status. The error component mirrors the Go return (the persistence fetch is
modelled as total, so it is always `none`). -/
def ListStreams (st : ManagerState) (flt : EventStreamSpec → Bool) :
    List EventStreamWithStatus × Option Err :=
  ((st.table.filter flt).map (enrichGetStream st), none)

/-- `esm.GetStreamByID`: fetch the row by ID and enrich it. -/
def GetStreamByID (st : ManagerState) (id : String) : Except Err EventStreamWithStatus :=
  match st.table.find? (fun r => r.getID == id) with
  | none => Except.error Err.notFound
  | some esSpec => Except.ok (enrichGetStream st esSpec)

/-- Outcome of `NewEventStreamManager`: a Go panic, an error return, or a
constructed manager. -/
inductive NewESMOutcome
  | panicked
  | failed (e : Err)
  | ok (st : ManagerState)
  deriving DecidableEq, Repr

/-- `NewEventStreamManager`: panic when the config type is not DBSerializable
(a type-level property, passed as `ctSerializable`); error when the retry
config is nil; parse every named TLS config up front (the external parser's
outcomes are carried on each entry), failing on the first bad one; then build
the manager state with an empty registry and run `initializeManager`,
failing if it fails. -/
def NewEventStreamManager (ctSerializable retryConfigured : Bool)
    (tlsParses : List (String × Bool)) (df : String → Bool)
    (table : List EventStreamSpec) (cps : List (String × String)) : NewESMOutcome :=
  if ¬ ctSerializable then NewESMOutcome.panicked
  else if ¬ retryConfigured then NewESMOutcome.failed Err.configNotInitialized
  else if ¬ tlsParses.all (fun p => p.2) then NewESMOutcome.failed Err.tlsParse
  else
    match (initializeManager df { table := table, checkpoints := cps, streams := [] }).1 with
    | Except.error e => NewESMOutcome.failed e
    | Except.ok st => NewESMOutcome.ok st

/-- A single typed FFI parameter (`FFIParam` in Go); the JSON schema blob is
opaque to everything the claims touch and is modelled as a string. -/
structure FFIParam where
  name : String
  schema : Option String
  deriving DecidableEq, Repr

/-- `FFIParams = []*FFIParam`. -/
abbrev FFIParams := List FFIParam

/-- The dynamic type cases of the `src interface{}` argument of `Scan`. -/
inductive ScanSrc
  | nullSrc
  | strSrc (s : String)
  | bytesSrc (b : List Nat)
  | otherSrc
  deriving DecidableEq, Repr

/-- Error kinds of the fftypes layer. -/
inductive SQLErr
  | typeRestoreFailed
  | unmarshalFailed
  | marshalFailed
  deriving DecidableEq, Repr

/-- `(*FFIParams).Scan`: `p` is the caller's current FFIParams value (what the
receiver pointer points at); the result pairs the value after the call with
the returned error. On a nil source the Go code assigns `p = nil`, which only
rebinds the method-local copy of the receiver pointer, so the caller's value
is unchanged and the error is nil. Strings and byte slices go through
`json.Unmarshal`, whose external behaviour (new value and error) is supplied
by the oracles `uS` and `uB`. Any other dynamic type yields the
MsgTypeRestoreFailed error with the receiver untouched. -/
def FFIParams.Scan (uS : FFIParams → String → FFIParams × Option SQLErr)
    (uB : FFIParams → List Nat → FFIParams × Option SQLErr)
    (p : FFIParams) : ScanSrc → FFIParams × Option SQLErr
  | ScanSrc.nullSrc => (p, none)
  | ScanSrc.strSrc s => uS p s
  | ScanSrc.bytesSrc b => uB p b
  | ScanSrc.otherSrc => (p, some SQLErr.typeRestoreFailed)

/-- `FFIParams.Value`: `bytes, _ := json.Marshal(p); return bytes, nil`. The
external `json.Marshal` is the oracle `marshal`; on its error Go's Marshal
returns a nil byte slice, and the error is discarded, so the driver value is
nil with a nil error. -/
def FFIParams.Value (marshal : FFIParams → Except SQLErr (List Nat)) (p : FFIParams) :
    Option (List Nat) × Option SQLErr :=
  match marshal p with
  | Except.ok b => (some b, none)
  | Except.error _ => (none, none)

/-- Fuel-indexed rendering of `initializeLoop`, used to reason about and
evaluate the paging loop (structural recursion, so the kernel can reduce it).
`initializeLoop_eq_fuel` proves it coincides with `initializeLoop` whenever
the fuel covers the remaining table length. -/
def initializeLoopFuel (df : String → Bool) :
    Nat → ManagerState → Nat → Except Err ManagerState × List InitAction
  | 0, st, _ => (Except.ok st, [])
  | fuel + 1, st, skip =>
    if (getPage st.table skip).isEmpty then (Except.ok st, [])
    else
      match processSpecs df st (getPage st.table skip) with
      | (Except.error e, tr) => (Except.error e, tr)
      | (Except.ok st', tr) =>
        let next := initializeLoopFuel df fuel st' (skip + pageSize)
        (next.1, tr ++ next.2)

/-- `initializeLoop` agrees with its fuel-indexed rendering when the fuel is
at least the number of table rows past `skip`. -/
theorem initializeLoop_eq_fuel (df : String → Bool) :
    ∀ (fuel : Nat) (st : ManagerState) (skip : Nat), st.table.length ≤ skip + fuel →
      initializeLoop df st skip = initializeLoopFuel df fuel st skip := by
  intro fuel
  induction fuel with
  | zero =>
    intro st skip h
    have hdrop : st.table.drop skip = [] := List.drop_eq_nil_of_le (by omega)
    have hpage : getPage st.table skip = [] := by simp [getPage, hdrop]
    rw [initializeLoop]
    simp [hpage, initializeLoopFuel]
  | succ fuel ih =>
    intro st skip h
    rw [initializeLoop]
    by_cases hpage : (getPage st.table skip).isEmpty = true
    · simp [hpage, initializeLoopFuel]
    · rcases hps : processSpecs df st (getPage st.table skip) with ⟨r, tr⟩
      cases r with
      | error e =>
        simp [initializeLoopFuel, hpage, hps]
      | ok st' =>
        have hle := processSpecs_ok_table_length df _ st st' tr hps
        have hfuel : st'.table.length ≤ (skip + pageSize) + fuel := by
          have : (1 : Nat) ≤ pageSize := by simp [pageSize]
          omega
        simp [initializeLoopFuel, hpage, hps, ih st' (skip + pageSize) hfuel]

/-- A trace action originates from a spec: a row deletion from a
deleted-status spec with that ID, a stream creation from a non-deleted one. -/
def specMatches (a : InitAction) (s : EventStreamSpec) : Prop :=
  (a = InitAction.deleteRow s.getID ∧ s.status = some EventStreamStatus.deleted) ∨
  (a = InitAction.createStream s.getID ∧ s.status ≠ some EventStreamStatus.deleted)

instance (a : InitAction) (s : EventStreamSpec) : Decidable (specMatches a s) := by
  unfold specMatches; infer_instance

/-- Every action emitted by `processSpecs` originates from a spec of the
processed page. -/
theorem processSpecs_trace_source (df : String → Bool) :
    ∀ (l : List EventStreamSpec) (st : ManagerState) (a : InitAction),
      a ∈ (processSpecs df st l).2 → ∃ s ∈ l, specMatches a s := by
  intro l
  induction l with
  | nil => intro st a h; simp [processSpecs] at h
  | cons s rest ih =>
    intro st a h
    by_cases hdel : s.status = some EventStreamStatus.deleted
    · by_cases hdf : df s.getID = true
      · simp [processSpecs, hdel, hdf] at h
      · rcases hrec : processSpecs df
            { st with table := deleteSpecRow st.table s.getID } rest with ⟨r, tr2⟩
        simp [processSpecs, hdel, hdf, hrec] at h
        rcases h with rfl | h
        · exact ⟨s, by simp, Or.inl ⟨rfl, hdel⟩⟩
        · obtain ⟨s', hs', hm⟩ := ih _ _ (by rw [hrec]; exact h)
          exact ⟨s', by simp [hs'], hm⟩
    · simp only [processSpecs, if_neg hdel, List.mem_cons] at h
      rcases h with rfl | h
      · exact ⟨s, by simp, Or.inr ⟨rfl, hdel⟩⟩
      · obtain ⟨s', hs', hm⟩ := ih _ _ h
        exact ⟨s', by simp [hs'], hm⟩

/-- A successful `processSpecs` leaves the table a sublist of the input
table (rows are only ever deleted). -/
theorem processSpecs_ok_table_sublist (df : String → Bool) :
    ∀ (l : List EventStreamSpec) (st st' : ManagerState) (tr : List InitAction),
      processSpecs df st l = (Except.ok st', tr) → st'.table.Sublist st.table := by
  intro l
  induction l with
  | nil =>
    intro st st' tr h
    simp [processSpecs] at h
    simp [h.1.symm]
  | cons s rest ih =>
    intro st st' tr h
    by_cases hdel : s.status = some EventStreamStatus.deleted
    · by_cases hdf : df s.getID = true
      · simp [processSpecs, hdel, hdf] at h
      · rcases hrec : processSpecs df
            { st with table := deleteSpecRow st.table s.getID } rest with ⟨r, tr2⟩
        simp [processSpecs, hdel, hdf, hrec] at h
        rw [h.1] at hrec
        have h1 := ih _ _ _ hrec
        exact h1.trans (by simpa [deleteSpecRow] using List.filter_sublist st.table)
    · rcases hrec : processSpecs df (addStream st (initEventStream s)) rest with ⟨r, tr2⟩
      simp [processSpecs, hdel, hrec] at h
      rw [h.1] at hrec
      have h1 := ih _ _ _ hrec
      simpa [addStream] using h1

/-- Every action emitted by the fuel-indexed loop originates from a spec that
is in the table at loop entry. -/
theorem initializeLoopFuel_trace_source (df : String → Bool) :
    ∀ (fuel : Nat) (st : ManagerState) (skip : Nat) (a : InitAction),
      a ∈ (initializeLoopFuel df fuel st skip).2 → ∃ s ∈ st.table, specMatches a s := by
  intro fuel
  induction fuel with
  | zero => intro st skip a h; simp [initializeLoopFuel] at h
  | succ fuel ih =>
    intro st skip a h
    by_cases hpage : (getPage st.table skip).isEmpty = true
    · simp [initializeLoopFuel, hpage] at h
    · rcases hps : processSpecs df st (getPage st.table skip) with ⟨r, tr⟩
      cases r with
      | error e =>
        simp only [initializeLoopFuel, hpage, Bool.false_eq_true, if_false, hps] at h
        obtain ⟨s, hs, hm⟩ := processSpecs_trace_source df _ _ _ (by rw [hps]; exact h)
        exact ⟨s, List.mem_of_mem_drop (List.mem_of_mem_take hs), hm⟩
      | ok st' =>
        simp only [initializeLoopFuel, hpage, Bool.false_eq_true, if_false, hps,
          List.mem_append] at h
        rcases h with h | h
        · obtain ⟨s, hs, hm⟩ := processSpecs_trace_source df _ _ _ (by rw [hps]; exact h)
          exact ⟨s, List.mem_of_mem_drop (List.mem_of_mem_take hs), hm⟩
        · obtain ⟨s, hs, hm⟩ := ih _ _ _ h
          have hsub := processSpecs_ok_table_sublist df _ _ _ _ hps
          exact ⟨s, hsub.subset hs, hm⟩

/-- Every action in the startup trace originates from a spec of the initial
table. -/
theorem initializeManager_trace_source (df : String → Bool) (st : ManagerState) (a : InitAction)
    (h : a ∈ (initializeManager df st).2) : ∃ s ∈ st.table, specMatches a s := by
  rw [initializeManager, initializeLoop_eq_fuel df st.table.length st 0 (by omega)] at h
  exact initializeLoopFuel_trace_source df _ _ _ _ h

/-- Discriminator for row-deletion actions. -/
def isDeleteRow : InitAction → Bool
  | InitAction.deleteRow _ => true
  | _ => false

/-- Discriminator for stream-creation actions. -/
def isCreateStream : InitAction → Bool
  | InitAction.createStream _ => true
  | _ => false

/-- The ordering asserted by the claim: in a startup trace, every spec-row
deletion happens before any LiveStream creation. -/
def deletesBeforeCreates (tr : List InitAction) : Prop :=
  ∀ i j : Fin tr.length,
    isDeleteRow (tr.get i) = true → isCreateStream (tr.get j) = true → (i : Nat) < (j : Nat)

instance (tr : List InitAction) : Decidable (deletesBeforeCreates tr) := by
  unfold deletesBeforeCreates; infer_instance

/-- A started spec with ID "a", ahead of a deleted spec in the table. -/
def c1CexSpecA : EventStreamSpec :=
  { id := some "a", name := some "n", status := some EventStreamStatus.started,
    initialSequenceID := none, config := some 0, batchSize := none, batchTimeoutMS := none }

/-- A deleted spec with ID "b", behind a started spec in the table. -/
def c1CexSpecB : EventStreamSpec :=
  { id := some "b", name := some "n", status := some EventStreamStatus.deleted,
    initialSequenceID := none, config := some 0, batchSize := none, batchTimeoutMS := none }

/-- Startup state whose spec table holds a started spec before a deleted one. -/
def c1CexState : ManagerState :=
  { table := [c1CexSpecA, c1CexSpecB], checkpoints := [], streams := [] }

/-- C1 counterexample: at startup over the table [started "a", deleted "b"],
the manager creates the LiveStream for "a" first and deletes the spec row of
"b" afterwards, so it is not the case that every deleted spec row is removed
before any LiveStream is created. -/
theorem c1_counterexample_delete_after_create :
    deletesBeforeCreates (initializeManager (fun _ => false) c1CexState).2 = False := by
  have htr : (initializeManager (fun _ => false) c1CexState).2
      = [InitAction.createStream "a", InitAction.deleteRow "b"] := by
    rw [initializeManager, initializeLoop_eq_fuel (fun _ => false) 2 c1CexState 0 (by decide)]
    decide
  rw [htr]
  exact eq_false (by decide)

/-- C1 (amended): at startup, for every persisted spec with status deleted
that the Manager encounters while paging, the spec row is removed and no
LiveStream is ever created for that spec's ID (so the removal precedes any
LiveStream creation for that same spec); removals and creations for distinct
specs are interleaved in table order. Stated for any delete-failure oracle and
any starting state whose rows have pairwise distinct IDs. -/
theorem c1_deleted_spec_never_materialised (df : String → Bool) (st : ManagerState) (id : String)
    (hnodup : (st.table.map EventStreamSpec.getID).Nodup)
    (hdel : InitAction.deleteRow id ∈ (initializeManager df st).2) :
    InitAction.createStream id ∉ (initializeManager df st).2 := by
  intro hcr
  obtain ⟨s1, hs1, hm1⟩ := initializeManager_trace_source df st _ hdel
  obtain ⟨s2, hs2, hm2⟩ := initializeManager_trace_source df st _ hcr
  rcases hm1 with ⟨he1, hst1⟩ | ⟨he1, _⟩
  · rcases hm2 with ⟨he2, _⟩ | ⟨he2, hst2⟩
    · exact absurd he2 (by simp)
    · have hid1 : s1.getID = id := by cases he1; rfl
      have hid2 : s2.getID = id := by cases he2; rfl
      have heq : s1 = s2 :=
        List.inj_on_of_nodup_map hnodup hs1 hs2 (by rw [hid1, hid2])
      rw [heq] at hst1
      exact hst2 hst1
  · exact absurd he1 (by simp)

/-- Startup state with a single deleted spec "d". -/
def c1WitnessState : ManagerState :=
  { table := [{ id := some "d", name := some "n", status := some EventStreamStatus.deleted,
                initialSequenceID := none, config := some 0, batchSize := none,
                batchTimeoutMS := none }],
    checkpoints := [], streams := [] }

/-- Witness for the amended C1 theorem at a concrete startup state. -/
theorem c1_witness_no_create_for_deleted :
    (InitAction.createStream "d" ∈ (initializeManager (fun _ => false) c1WitnessState).2)
      = False := by
  have htr : (initializeManager (fun _ => false) c1WitnessState).2
      = [InitAction.deleteRow "d"] := by
    rw [initializeManager, initializeLoop_eq_fuel (fun _ => false) 1 c1WitnessState 0 (by decide)]
    decide
  exact eq_false (c1_deleted_spec_never_materialised (fun _ => false) c1WitnessState "d"
    (by decide) (by rw [htr]; decide))

/-- Row i of the C3 failing table: 26 rows with distinct IDs "es0".."es25";
row 0 has status deleted, all others status started. -/
def c3BugSpec (i : Nat) : EventStreamSpec :=
  { id := some ("es" ++ toString i), name := some "n",
    status := some (if i = 0 then EventStreamStatus.deleted else EventStreamStatus.started),
    initialSequenceID := none, config := some 0, batchSize := none, batchTimeoutMS := none }

/-- The C3 failing startup state: a 26-row spec table (one more row than the
page size) whose first row is deleted. -/
def c3BugState : ManagerState :=
  { table := (List.range 26).map c3BugSpec, checkpoints := [], streams := [] }

/-- Observation on an `initialize` outcome: startup succeeded, yet the given
row is still persisted while no LiveStream is registered under its ID. -/
def noStreamForRow (res : Except Err ManagerState) (row : EventStreamSpec) : Bool :=
  match res with
  | Except.ok stf => (lookupStream stf.streams row.getID).isNone && decide (row ∈ stf.table)
  | Except.error _ => false

/-- C3 (code bug, evaluated): starting from `c3BugState`, `initialize`
succeeds, yet the non-deleted spec "es25" is still persisted while no
LiveStream was registered for it: deleting the deleted row mid-pagination
shifts the remaining rows, and the skip-based paging then steps past the last
row, contradicting "no non-deleted persisted spec is left without a
LiveStream". -/
theorem c3_code_bug_row_skipped :
    noStreamForRow (initializeManager (fun _ => false) c3BugState).1 (c3BugSpec 25) = true ∧
    (c3BugSpec 25).status = some EventStreamStatus.started := by
  constructor
  · rw [initializeManager, initializeLoop_eq_fuel (fun _ => false) 26 c3BugState 0 (by decide)]
    decide
  · decide

/-- Looking up the key just inserted returns the inserted value. -/
theorem lookupStream_insertStream_self (l : List (String × LiveStream)) (id : String)
    (v : LiveStream) : lookupStream (insertStream l id v) id = some v := by
  induction l with
  | nil => simp [insertStream, lookupStream]
  | cons kv t ih =>
    rcases kv with ⟨k, w⟩
    by_cases h : k = id
    · simp [insertStream, lookupStream, h]
    · simp [insertStream, lookupStream, h, ih]

/-- Pointwise relation between every list element and its image. -/
theorem forall2_map_self {α : Type} {R : α → α → Prop} (f : α → α) :
    ∀ l : List α, (∀ a ∈ l, R a (f a)) → List.Forall₂ R l (l.map f) := by
  intro l h
  induction l with
  | nil => simp
  | cons a t ih =>
    exact List.Forall₂.cons (h a (by simp)) (ih fun b hb => h b (by simp [hb]))

/-- Frame of the sparse update issued by `ResetStream id seq`: every field of
a row other than `initialSequenceID` is untouched, and `initialSequenceID`
itself is untouched on rows whose ID differs from the reset stream's. -/
def resetRowFrame (id : String) (r r' : EventStreamSpec) : Prop :=
  r'.getID = r.getID ∧ r'.name = r.name ∧ r'.status = r.status ∧ r'.config = r.config ∧
  r'.batchSize = r.batchSize ∧ r'.batchTimeoutMS = r.batchTimeoutMS ∧
  (r.getID ≠ id → r'.initialSequenceID = r.initialSequenceID)

instance (id : String) (r r' : EventStreamSpec) : Decidable (resetRowFrame id r r') := by
  unfold resetRowFrame; infer_instance

/-- Postcondition of a successful `ResetStream st id seq`, relative to the
persisted row `row` of the stream: every checkpoint for the stream is gone;
the registered LiveStream carries `initialSequenceID = seq` and is active
exactly when the persisted status is started; every persisted row with the
stream's ID carries `initialSequenceID = seq`; and the table rows changed in
no other field (sparse update frame). -/
def resetPost (st : ManagerState) (id seq : String) (row : EventStreamSpec) : Prop :=
  (∀ c ∈ (ResetStream st id seq).1.checkpoints, c.1 ≠ id) ∧
  (∃ es', lookupStream (ResetStream st id seq).1.streams id = some es' ∧
      es'.spec.initialSequenceID = some seq ∧
      (es'.active = true ↔ row.status = some EventStreamStatus.started)) ∧
  (∀ r ∈ (ResetStream st id seq).1.table, r.getID = id → r.initialSequenceID = some seq) ∧
  List.Forall₂ (resetRowFrame id) st.table (ResetStream st id seq).1.table

instance (st : ManagerState) (id seq : String) (row : EventStreamSpec) :
    Decidable (resetPost st id seq row) := by
  unfold resetPost; infer_instance

/-- C2: after `ResetStream(id, seq)` returns successfully on an existing
stream, every checkpoint record for the stream has been deleted, the stream's
`initialSequenceID` equals `seq` both in the in-memory spec and in
persistence (via a sparse update that touches only the ID and
`initialSequenceID` fields of the row), and the stream is started again if
and only if its persisted status is started. `hcons` records that the
LiveStream's in-memory spec snapshot agrees with the persisted row on the
status (the code reads the in-memory copy where the claim says "persisted"). -/
theorem c2_resetStream_postconditions (st : ManagerState) (id seq : String)
    (es : LiveStream) (row : EventStreamSpec)
    (hes : lookupStream st.streams id = some es)
    (hok : (ResetStream st id seq).2 = none)
    (hrow : row ∈ st.table) (hid : row.getID = id)
    (hcons : row.status = es.spec.status) :
    resetPost st id seq row := by
  have hsf : es.suspendFails = false := by
    by_contra hne
    rw [Bool.not_eq_false] at hne
    simp [ResetStream, hes, LiveStream.suspend, hne] at hok
  have hspid : (sparseSeqUpdate id seq).getID = id := by
    simp [sparseSeqUpdate, EventStreamSpec.getID]
  refine ⟨?_, ?_, ?_, ?_⟩
  · intro c hc
    simp only [ResetStream, hes, LiveStream.suspend, hsf] at hc
    simp only [Bool.false_eq_true, if_false] at hc
    have h2 : c ∈ st.checkpoints ∧ ¬c.1 = id := by simpa using hc
    exact h2.2
  · simp only [ResetStream, hes, LiveStream.suspend, hsf, Bool.false_eq_true, if_false]
    by_cases hstat : es.spec.status = some EventStreamStatus.started
    · refine ⟨_, by rw [lookupStream_insertStream_self], ?_⟩
      simp [hstat, LiveStream.start, hcons]
    · refine ⟨_, by rw [lookupStream_insertStream_self], ?_⟩
      simp [hstat, hcons]
  · intro r hr hrid
    simp only [ResetStream, hes, LiveStream.suspend, hsf, Bool.false_eq_true, if_false] at hr
    obtain ⟨r0, hr0, hmap⟩ := List.mem_map.mp (by simpa [updateSparse] using hr)
    by_cases h0 : r0.getID = (sparseSeqUpdate id seq).getID
    · rw [if_pos h0] at hmap
      rw [← hmap]
      simp [applySparse, sparseSeqUpdate, pickField]
    · rw [if_neg h0] at hmap
      rw [← hmap] at hrid
      rw [hspid] at h0
      exact absurd hrid h0
  · simp only [ResetStream, hes, LiveStream.suspend, hsf, Bool.false_eq_true, if_false]
    apply forall2_map_self
    intro r0 hr0
    by_cases h0 : (r0.getID == (sparseSeqUpdate id seq).getID) = true
    · rw [if_pos h0]
      rw [hspid] at h0
      have h0' : r0.getID = id := by simpa using h0
      exact ⟨h0'.symm, rfl, rfl, rfl, rfl, rfl, fun hne => absurd h0' hne⟩
    · rw [if_neg h0]
      exact ⟨rfl, rfl, rfl, rfl, rfl, rfl, fun _ => rfl⟩

/-- Concrete persisted row used in the C2 witness. -/
def c2WitnessRow : EventStreamSpec :=
  { id := some "x", name := some "n", status := some EventStreamStatus.started,
    initialSequenceID := some "a", config := some 0, batchSize := none, batchTimeoutMS := none }

/-- Concrete LiveStream used in the C2 witness. -/
def c2WitnessStream : LiveStream :=
  { spec := c2WitnessRow, active := true, suspendFails := false }

/-- Concrete manager state used in the C2 witness. -/
def c2WitnessState : ManagerState :=
  { table := [c2WitnessRow], checkpoints := [("x", "c1")],
    streams := [("x", c2WitnessStream)] }

/-- Witness for C2 at a concrete state: the reset postcondition holds after
resetting stream "x" to sequence "z". -/
theorem c2_witness_reset : resetPost c2WitnessState "x" "z" c2WitnessRow :=
  c2_resetStream_postconditions c2WitnessState "x" "z" c2WitnessStream c2WitnessRow
    (by decide) (by decide) (by decide) (by decide) (by decide)

/-- `assignID` touches only the `id` field. -/
theorem assignID_status (rt : RuntimeModel) (es : EventStreamSpec) :
    (assignID rt es).status = es.status := by
  unfold assignID; split <;> rfl

/-- `reInit` never touches the persisted spec table. -/
theorem reInit_table (st : ManagerState) (v : EventStreamSpec) (ex : Option LiveStream) :
    (reInit st v ex).1.table = st.table := by
  cases ex with
  | none => simp [reInit, addStream]
  | some e =>
    by_cases h : e.suspendFails = true
    · simp [reInit, LiveStream.suspend, h]
    · simp [reInit, LiveStream.suspend, h, addStream]

/-- `reInit` either succeeds or fails with the suspend error of the
pre-existing stream. -/
theorem reInit_snd (st : ManagerState) (v : EventStreamSpec) (ex : Option LiveStream) :
    (reInit st v ex).2 = none ∨ (reInit st v ex).2 = some Err.suspendError := by
  cases ex with
  | none => simp [reInit]
  | some e =>
    by_cases h : e.suspendFails = true
    · simp [reInit, LiveStream.suspend, h]
    · simp [reInit, LiveStream.suspend, h]

/-- C4: for every input spec whose status is non-nil and neither started nor
stopped, `UpsertStream` returns the started-or-stopped validation error and
leaves the whole state (spec table and stream registry) unchanged; a nil
status is defaulted to started before that check (so the check then passes
and that error is never returned); and a nil or empty ID is replaced by a
fresh ID from the runtime's ID generator. -/
theorem c4_upsert_rejects_invalid_status (rt : RuntimeModel) (st : ManagerState)
    (es : EventStreamSpec) :
    (∀ s, es.status = some s → s ≠ EventStreamStatus.started → s ≠ EventStreamStatus.stopped →
        UpsertStream rt st es = (st, false, some Err.startedOrStopped)) ∧
    (es.status = none →
        (defaultStatus (assignID rt es)).status = some EventStreamStatus.started ∧
        (UpsertStream rt st es).2.2 ≠ some Err.startedOrStopped) ∧
    ((es.id = none ∨ es.id = some "") → (assignID rt es).id = some rt.newID) := by
  refine ⟨?_, ?_, ?_⟩
  · intro s hs hns hnss
    have hs1 : (defaultStatus (assignID rt es)).status = some s := by
      simp [defaultStatus, assignID_status, hs]
    have hcond : ¬((defaultStatus (assignID rt es)).status = some EventStreamStatus.started ∨
        (defaultStatus (assignID rt es)).status = some EventStreamStatus.stopped) := by
      rw [hs1]
      rintro (h | h)
      · exact hns (by simpa using h)
      · exact hnss (by simpa using h)
    simp [UpsertStream, hcond]
  · intro hnone
    have hb1 : (defaultStatus (assignID rt es)).status = some EventStreamStatus.started := by
      simp [defaultStatus, assignID_status, hnone]
    refine ⟨hb1, ?_⟩
    have hguard : (defaultStatus (assignID rt es)).status = some EventStreamStatus.started ∨
        (defaultStatus (assignID rt es)).status = some EventStreamStatus.stopped :=
      Or.inl hb1
    simp only [UpsertStream, if_neg (not_not_intro hguard)]
    rcases hval : validateStream rt (defaultStatus (assignID rt es)) false with _ | v
    · simp
    · simp only []
      rcases reInit_snd { st with table := (upsertRow st.table v).1 }
          v (if es.id = none ∨ es.id = some "" then none
             else lookupStream st.streams (assignID rt es).getID) with h | h <;>
        simp [h]
  · intro h
    simp [assignID, h]

/-- Runtime model used by the Upsert witnesses. -/
def c4Rt : RuntimeModel := { newID := "fresh", validateConfig := fun _ => true }

/-- Empty manager state used by the Upsert witnesses. -/
def c4WitnessState : ManagerState := { table := [], checkpoints := [], streams := [] }

/-- A spec with the non-assertable status deleted. -/
def c4BadSpec : EventStreamSpec :=
  { id := some "x", name := some "n", status := some EventStreamStatus.deleted,
    initialSequenceID := none, config := some 0, batchSize := none, batchTimeoutMS := none }

/-- A spec with a nil status. -/
def c4NilStatusSpec : EventStreamSpec :=
  { id := some "x", name := some "n", status := none,
    initialSequenceID := none, config := some 0, batchSize := none, batchTimeoutMS := none }

/-- A spec with a nil ID. -/
def c4NilIDSpec : EventStreamSpec :=
  { id := none, name := some "n", status := some EventStreamStatus.started,
    initialSequenceID := none, config := some 0, batchSize := none, batchTimeoutMS := none }

/-- Witness for C4 at concrete inputs: status deleted is rejected with the
state unchanged, a nil status defaults to started and is not rejected, and a
nil ID receives the runtime's fresh ID. -/
theorem c4_witness_upsert :
    UpsertStream c4Rt c4WitnessState c4BadSpec
      = (c4WitnessState, false, some Err.startedOrStopped) ∧
    (defaultStatus (assignID c4Rt c4NilStatusSpec)).status = some EventStreamStatus.started ∧
    (UpsertStream c4Rt c4WitnessState c4NilStatusSpec).2.2 ≠ some Err.startedOrStopped ∧
    (assignID c4Rt c4NilIDSpec).id = some c4Rt.newID := by
  refine ⟨?_, ?_, ?_, ?_⟩
  · exact (c4_upsert_rejects_invalid_status c4Rt c4WitnessState c4BadSpec).1
      EventStreamStatus.deleted rfl (by decide) (by decide)
  · exact ((c4_upsert_rejects_invalid_status c4Rt c4WitnessState c4NilStatusSpec).2.1 rfl).1
  · exact ((c4_upsert_rejects_invalid_status c4Rt c4WitnessState c4NilStatusSpec).2.1 rfl).2
  · exact (c4_upsert_rejects_invalid_status c4Rt c4WitnessState c4NilIDSpec).2.2 (Or.inl rfl)

/-- With `applyDefaults` false, a successful validation returns the spec
unchanged: no defaults are written back. -/
theorem validateStream_false_eq (rt : RuntimeModel) (s v : EventStreamSpec)
    (h : validateStream rt s false = some v) : v = s := by
  unfold validateStream at h
  split_ifs at h <;> simp_all

/-- Agreement on every field other than `id` and `status`. -/
def eqExceptIdStatus (a b : EventStreamSpec) : Prop :=
  a.name = b.name ∧ a.initialSequenceID = b.initialSequenceID ∧ a.config = b.config ∧
  a.batchSize = b.batchSize ∧ a.batchTimeoutMS = b.batchTimeoutMS

/-- ID assignment and status defaulting leave every other field unchanged. -/
theorem defaultAssign_frame (rt : RuntimeModel) (es : EventStreamSpec) :
    eqExceptIdStatus (defaultStatus (assignID rt es)) es := by
  simp only [eqExceptIdStatus, assignID, defaultStatus]
  split_ifs <;> exact ⟨rfl, rfl, rfl, rfl, rfl⟩

/-- C5: `UpsertStream` validates with defaults disabled, and validation with
defaults disabled never mutates the spec; consequently, whenever the upsert
to persistence is reached (the status guard passed and validation succeeded
on the ID-assigned, status-defaulted spec), the row handed to `Upsert` is
exactly that spec — equal to the input spec on every field other than the
freshly assigned `id` and the defaulted `status`. -/
theorem c5_upsert_persists_unmutated_spec :
    (∀ (rt : RuntimeModel) (s v : EventStreamSpec),
        validateStream rt s false = some v → v = s) ∧
    (∀ (rt : RuntimeModel) (st : ManagerState) (es v : EventStreamSpec),
        ((defaultStatus (assignID rt es)).status = some EventStreamStatus.started ∨
         (defaultStatus (assignID rt es)).status = some EventStreamStatus.stopped) →
        validateStream rt (defaultStatus (assignID rt es)) false = some v →
        (UpsertStream rt st es).1.table = (upsertRow st.table v).1 ∧
        v = defaultStatus (assignID rt es) ∧ eqExceptIdStatus v es) := by
  refine ⟨validateStream_false_eq, ?_⟩
  intro rt st es v hguard hval
  have hv : v = defaultStatus (assignID rt es) := validateStream_false_eq rt _ v hval
  refine ⟨?_, hv, hv ▸ defaultAssign_frame rt es⟩
  simp only [UpsertStream, if_neg (not_not_intro hguard), hval]
  simp [reInit_table]

/-- Spec used by the C5 witness (ID and status both present). -/
def c5Spec : EventStreamSpec :=
  { id := some "y", name := some "n", status := some EventStreamStatus.stopped,
    initialSequenceID := none, config := some 0, batchSize := none, batchTimeoutMS := none }

/-- Witness for C5 at concrete inputs. -/
theorem c5_witness_upsert :
    c5Spec = c5Spec ∧
    ((UpsertStream c4Rt c4WitnessState c5Spec).1.table
        = (upsertRow c4WitnessState.table c5Spec).1 ∧
      c5Spec = defaultStatus (assignID c4Rt c5Spec) ∧ eqExceptIdStatus c5Spec c5Spec) :=
  ⟨c5_upsert_persists_unmutated_spec.1 c4Rt c5Spec c5Spec (by decide),
   c5_upsert_persists_unmutated_spec.2 c4Rt c4WitnessState c5Spec c5Spec
     (Or.inr (by decide)) (by decide)⟩

/-- C6: for every spec returned by `ListStreams` or `GetStreamByID` for which
no LiveStream exists in the registry, the returned value wraps the persisted
spec with status unknown, and the absence of a LiveStream never causes an
error (`ListStreams` returns no error; `GetStreamByID` still returns ok). -/
theorem c6_unknown_status_overlay :
    (∀ (st : ManagerState) (flt : EventStreamSpec → Bool) (spec : EventStreamSpec),
        spec ∈ st.table.filter flt →
        lookupStream st.streams spec.getID = none →
        ({ spec := spec, status := EventStreamStatus.unknown } : EventStreamWithStatus)
            ∈ (ListStreams st flt).1 ∧ (ListStreams st flt).2 = none) ∧
    (∀ (st : ManagerState) (id : String) (spec : EventStreamSpec),
        st.table.find? (fun r => r.getID == id) = some spec →
        lookupStream st.streams spec.getID = none →
        GetStreamByID st id
          = Except.ok { spec := spec, status := EventStreamStatus.unknown }) := by
  constructor
  · intro st flt spec hmem hlk
    refine ⟨?_, rfl⟩
    have henr : enrichGetStream st spec
        = { spec := spec, status := EventStreamStatus.unknown } := by
      simp [enrichGetStream, hlk]
    have : enrichGetStream st spec ∈ (ListStreams st flt).1 := by
      simp only [ListStreams]
      exact List.mem_map_of_mem (enrichGetStream st) hmem
    rwa [henr] at this
  · intro st id spec hfind hlk
    simp [GetStreamByID, hfind, enrichGetStream, hlk]

/-- Persisted spec used by the C6 witness; there is no LiveStream for it. -/
def c6Spec : EventStreamSpec :=
  { id := some "w", name := some "n", status := some EventStreamStatus.started,
    initialSequenceID := none, config := some 0, batchSize := none, batchTimeoutMS := none }

/-- Manager state for the C6 witness: one persisted row, empty registry. -/
def c6State : ManagerState := { table := [c6Spec], checkpoints := [], streams := [] }

/-- Witness for C6 at a concrete state. -/
theorem c6_witness_unknown_overlay :
    (({ spec := c6Spec, status := EventStreamStatus.unknown } : EventStreamWithStatus)
        ∈ (ListStreams c6State (fun _ => true)).1 ∧
      (ListStreams c6State (fun _ => true)).2 = none) ∧
    GetStreamByID c6State "w"
      = Except.ok { spec := c6Spec, status := EventStreamStatus.unknown } :=
  ⟨c6_unknown_status_overlay.1 c6State (fun _ => true) c6Spec (by decide) (by decide),
   c6_unknown_status_overlay.2 c6State "w" c6Spec (by decide) (by decide)⟩

/-- C8: `NewEventStreamManager` panics exactly when the config type is not
DBSerializable; it returns a constructed manager exactly when the type is
serializable, the retry config is present, every named TLS config parses and
initialization from persistence succeeds; and in every remaining case (the
type is serializable but the retry config is missing, a TLS config fails to
parse, or initialization fails) it returns an error without a manager. -/
theorem c8_new_manager_outcomes (ctSer retry : Bool) (tls : List (String × Bool))
    (df : String → Bool) (table : List EventStreamSpec) (cps : List (String × String)) :
    (NewEventStreamManager ctSer retry tls df table cps = NewESMOutcome.panicked ↔
      ctSer = false) ∧
    ((∃ stf, NewEventStreamManager ctSer retry tls df table cps = NewESMOutcome.ok stf) ↔
      (ctSer = true ∧ retry = true ∧ tls.all (fun p => p.2) = true ∧
        ∃ stf, (initializeManager df { table := table, checkpoints := cps, streams := [] }).1
          = Except.ok stf)) ∧
    (ctSer = true →
      ¬(retry = true ∧ tls.all (fun p => p.2) = true ∧
          ∃ stf, (initializeManager df { table := table, checkpoints := cps, streams := [] }).1
            = Except.ok stf) →
      ∃ e, NewEventStreamManager ctSer retry tls df table cps = NewESMOutcome.failed e) := by
  cases ctSer with
  | false => simp [NewEventStreamManager]
  | true =>
    cases retry with
    | false => simp [NewEventStreamManager]
    | true =>
      by_cases htls : tls.all (fun p => p.2) = true
      · rcases hres : (initializeManager df
            { table := table, checkpoints := cps, streams := [] }).1 with e | stf
        · simp [NewEventStreamManager, htls, hres]
        · simp [NewEventStreamManager, htls, hres]
      · simp [NewEventStreamManager, htls]

/-- Witness for C8 at concrete inputs: with a serializable config type,
retry configured, all TLS configs parsing and an empty spec table, a manager
is constructed; and with the retry config missing, an error is returned. -/
theorem c8_witness_new_manager :
    (∃ stf, NewEventStreamManager true true [("a", true)] (fun _ => false) [] []
        = NewESMOutcome.ok stf) ∧
    (∃ e, NewEventStreamManager true false [] (fun _ => false) [] []
        = NewESMOutcome.failed e) := by
  constructor
  · refine (c8_new_manager_outcomes true true [("a", true)] (fun _ => false) [] []).2.1.mpr
      ⟨rfl, rfl, by decide, ?_⟩
    refine ⟨{ table := [], checkpoints := [], streams := [] }, ?_⟩
    rw [initializeManager, initializeLoop_eq_fuel (fun _ => false) 0
      { table := [], checkpoints := [], streams := [] } 0 (by decide)]
    rfl
  · refine (c8_new_manager_outcomes true false [] (fun _ => false) [] []).2.2 rfl ?_
    rintro ⟨h, -⟩
    exact Bool.false_ne_true h

/-- C9: `FFIParams.Scan` with a nil source returns a nil error and leaves the
caller's FFIParams value unchanged (the `p = nil` assignment only rebinds the
method-local copy of the receiver pointer), and with a source that is neither
nil, string nor byte slice it returns the type-restore error without touching
the receiver. -/
theorem c9_ffiparams_scan_nil_and_other
    (uS : FFIParams → String → FFIParams × Option SQLErr)
    (uB : FFIParams → List Nat → FFIParams × Option SQLErr) (p : FFIParams) :
    FFIParams.Scan uS uB p ScanSrc.nullSrc = (p, none) ∧
    FFIParams.Scan uS uB p ScanSrc.otherSrc = (p, some SQLErr.typeRestoreFailed) :=
  ⟨rfl, rfl⟩

/-- C10: `FFIParams.Value` never reports an error: whatever `json.Marshal`
does, the returned error is nil, and when marshalling fails the result is a
nil byte slice with a nil error. -/
theorem c10_ffiparams_value_never_errors
    (marshal : FFIParams → Except SQLErr (List Nat)) (p : FFIParams) :
    (FFIParams.Value marshal p).2 = none ∧
    (∀ e, marshal p = Except.error e → FFIParams.Value marshal p = (none, none)) := by
  constructor
  · rcases h : marshal p with e | b <;> simp [FFIParams.Value, h]
  · intro e he
    simp [FFIParams.Value, he]

/-- Witness for C10 at a concrete failing marshaller. -/
theorem c10_witness_value :
    (FFIParams.Value (fun _ => Except.error SQLErr.marshalFailed) []).2 = none ∧
    FFIParams.Value (fun _ => Except.error SQLErr.marshalFailed) [] = (none, none) :=
  ⟨(c10_ffiparams_value_never_errors (fun _ => Except.error SQLErr.marshalFailed) []).1,
   (c10_ffiparams_value_never_errors (fun _ => Except.error SQLErr.marshalFailed) []).2
     SQLErr.marshalFailed rfl⟩
